import Mathlib

/-!
Verification of the quiz-competition core: scoring engine, session state
machine, answer submission, participant join, and session-code generation.

The Python source is embedded shallowly:
  * database rows become structures over ℕ ids and ℚ timestamps
    (timestamps are seconds; `datetime` subtraction becomes ℚ subtraction,
    so fractional seconds are exact rationals rather than floats);
  * SQLAlchemy tables become Lean lists, queries become list searches;
  * Python `int(x)` truncation toward zero becomes `int_trunc`;
  * a raised `ZeroDivisionError` becomes `Except.error` in the checked
    variant of the score function;
  * Python `dict` (insertion-ordered, assignment overwrites in place)
    becomes an association list with positional upsert.
-/

/-- App configuration constant from config.py: BASE_POINTS = 1000. -/
def BASE_POINTS : ℤ := 1000

/-- App configuration constant from config.py: SPEED_PENALTY_MULTIPLIER = 0.3. -/
def SPEED_PENALTY_MULTIPLIER : ℚ := 3 / 10

/-- App configuration constant from config.py: SESSION_CODE_LENGTH = 5. -/
def SESSION_CODE_LENGTH : ℕ := 5

/-- Python `int(x)` applied to a rational: truncation toward zero. -/
def int_trunc (q : ℚ) : ℤ := if 0 ≤ q then ⌊q⌋ else ⌈q⌉

/-- QuestionOption row (question_option.py): display order and correctness flag. -/
structure QOption where
  id : ℕ
  option_order : ℕ
  is_correct : Bool
deriving Repr, DecidableEq

/-- Question row (question.py): display order and per-question time limit in seconds. -/
structure Question where
  id : ℕ
  question_order : ℕ
  time_limit : ℕ
deriving Repr, DecidableEq

/-- StudentAnswer row (student_ansawer.py) with its ORM relationships resolved:
`selected_option` is the QuestionOption reached through the nullable option_id
(none models a NULL option_id), and `question` is the related Question row. -/
structure StudentAnswer where
  session_id : ℕ
  student_id : ℕ
  question : Question
  selected_option : Option QOption
  submitted_at : ℚ
deriving Repr, DecidableEq

/-- ScoringService.calculate_answer_score (scoring_service.py lines 85-115):
0 for a missing or incorrect option, otherwise BASE_POINTS minus the speed
penalty computed from the clamped elapsed time. Total version: the rational
field makes division by zero return 0; the checked variant below records
where Python would raise ZeroDivisionError instead. -/
def calculate_answer_score (answer : StudentAnswer) (question_start_time : ℚ)
    (time_limit : ℕ) : ℤ :=
  match answer.selected_option with
  | none => 0
  | some opt =>
    if opt.is_correct = false then 0
    else
      let time_taken0 : ℚ := answer.submitted_at - question_start_time
      let time_taken : ℚ := max 0 (min time_taken0 (time_limit : ℚ))
      let speed_penalty : ℤ :=
        int_trunc (time_taken / (time_limit : ℚ) * (BASE_POINTS : ℚ) * SPEED_PENALTY_MULTIPLIER)
      max 0 (BASE_POINTS - speed_penalty)

/-- Same control flow as `calculate_answer_score`, but faithful to Python
evaluation of `time_taken / time_limit`: when the divisor is the integer 0
Python raises ZeroDivisionError, modelled as `Except.error ()`. The earlier
returns (missing or incorrect option) happen before the division is reached. -/
def calculate_answer_score_checked (answer : StudentAnswer) (question_start_time : ℚ)
    (time_limit : ℕ) : Except Unit ℤ :=
  match answer.selected_option with
  | none => .ok 0
  | some opt =>
    if opt.is_correct = false then .ok 0
    else
      let time_taken0 : ℚ := answer.submitted_at - question_start_time
      let time_taken : ℚ := max 0 (min time_taken0 (time_limit : ℚ))
      if time_limit = 0 then .error ()
      else
        let speed_penalty : ℤ :=
          int_trunc (time_taken / (time_limit : ℚ) * (BASE_POINTS : ℚ) * SPEED_PENALTY_MULTIPLIER)
        .ok (max 0 (BASE_POINTS - speed_penalty))

/-- The clamp used by the score function: elapsed seconds clamped to [0, time_limit]. -/
def clampElapsed (answer : StudentAnswer) (question_start_time : ℚ) (time_limit : ℕ) : ℚ :=
  max 0 (min (answer.submitted_at - question_start_time) (time_limit : ℚ))

example :
    calculate_answer_score
      ⟨1, 1, ⟨1, 1, 30⟩, some ⟨5, 1, true⟩, 3⟩ 0 30 = 970 := by
  norm_num [calculate_answer_score, int_trunc, min_def, max_def, BASE_POINTS, SPEED_PENALTY_MULTIPLIER]

example :
    calculate_answer_score
      ⟨1, 1, ⟨1, 1, 30⟩, some ⟨5, 1, false⟩, 3⟩ 0 30 = 0 := by
  norm_num [calculate_answer_score]

example :
    calculate_answer_score
      ⟨1, 1, ⟨1, 1, 30⟩, some ⟨5, 1, true⟩, 30⟩ 0 30 = 700 := by
  norm_num [calculate_answer_score, int_trunc, min_def, max_def, BASE_POINTS, SPEED_PENALTY_MULTIPLIER]

example :
    calculate_answer_score_checked
      ⟨1, 1, ⟨1, 1, 30⟩, some ⟨5, 1, true⟩, 3⟩ 0 0 = .error () := by
  norm_num [calculate_answer_score_checked]

lemma clampElapsed_nonneg (answer : StudentAnswer) (qst : ℚ) (tl : ℕ) :
    0 ≤ clampElapsed answer qst tl := le_max_left _ _

lemma clampElapsed_le (answer : StudentAnswer) (qst : ℚ) (tl : ℕ) :
    clampElapsed answer qst tl ≤ (tl : ℚ) :=
  max_le (by positivity) (min_le_right _ _)

lemma score_correct_eq (answer : StudentAnswer) (qst : ℚ) (tl : ℕ) (htl : tl ≠ 0)
    (o : QOption) (ho : answer.selected_option = some o) (hc : o.is_correct = true) :
    calculate_answer_score answer qst tl =
      max 0 (1000 - ⌊clampElapsed answer qst tl / (tl : ℚ) * 1000 * (3 / 10)⌋) := by
  have hq : (0 : ℚ) ≤ clampElapsed answer qst tl / (tl : ℚ) * 1000 * (3 / 10) := by
    have h0 := clampElapsed_nonneg answer qst tl
    have htl' : (0 : ℚ) ≤ (tl : ℚ) := by positivity
    positivity
  simp only [calculate_answer_score, ho, hc, Bool.true_eq_false, if_false, int_trunc,
    clampElapsed, BASE_POINTS, SPEED_PENALTY_MULTIPLIER] at *
  push_cast
  rw [if_pos hq]

/-- C1. calculate_answer_score returns 0 when the selected option is missing or
incorrect; otherwise, with elapsed clamped to [0, time_limit], it returns
max(0, 1000 - floor(elapsed / time_limit * 1000 * 0.3)), which is 1000 at
elapsed = 0, 700 at elapsed = time_limit, and always lies in [0, 1000]. -/
theorem calculate_answer_score_spec (answer : StudentAnswer) (question_start_time : ℚ)
    (time_limit : ℕ) (htl : 1 ≤ time_limit) :
    (0 ≤ calculate_answer_score answer question_start_time time_limit ∧
      calculate_answer_score answer question_start_time time_limit ≤ 1000) ∧
    ((answer.selected_option = none ∨
        ∃ o, answer.selected_option = some o ∧ o.is_correct = false) →
      calculate_answer_score answer question_start_time time_limit = 0) ∧
    (∀ o, answer.selected_option = some o → o.is_correct = true →
      calculate_answer_score answer question_start_time time_limit =
        max 0 (1000 - ⌊clampElapsed answer question_start_time time_limit / (time_limit : ℚ)
          * 1000 * (3 / 10)⌋) ∧
      (clampElapsed answer question_start_time time_limit = 0 →
        calculate_answer_score answer question_start_time time_limit = 1000) ∧
      (clampElapsed answer question_start_time time_limit = (time_limit : ℚ) →
        calculate_answer_score answer question_start_time time_limit = 700)) := by
  have htl0 : time_limit ≠ 0 := by omega
  have htlq : (0 : ℚ) < (time_limit : ℚ) := by exact_mod_cast Nat.pos_of_ne_zero htl0
  -- bounds on the penalty in the correct case
  have hkey : ∀ o : QOption, answer.selected_option = some o → o.is_correct = true →
      calculate_answer_score answer question_start_time time_limit =
        max 0 (1000 - ⌊clampElapsed answer question_start_time time_limit / (time_limit : ℚ)
          * 1000 * (3 / 10)⌋) ∧
      (clampElapsed answer question_start_time time_limit = 0 →
        calculate_answer_score answer question_start_time time_limit = 1000) ∧
      (clampElapsed answer question_start_time time_limit = (time_limit : ℚ) →
        calculate_answer_score answer question_start_time time_limit = 700) := by
    intro o ho hc
    have heq := score_correct_eq answer question_start_time time_limit htl0 o ho hc
    refine ⟨heq, ?_, ?_⟩
    · intro h0
      rw [heq, h0]
      norm_num
    · intro hfull
      rw [heq, hfull, div_self (ne_of_gt htlq)]
      norm_num
  refine ⟨?_, ?_, hkey⟩
  · -- range [0, 1000] in every case
    match hsel : answer.selected_option with
    | none =>
      simp [calculate_answer_score, hsel]
    | some o =>
      by_cases hc : o.is_correct = true
      · have heq := (hkey o hsel hc).1
        rw [heq]
        set q : ℚ :=
          clampElapsed answer question_start_time time_limit / (time_limit : ℚ) * 1000 * (3 / 10)
          with hqdef
        have hq0 : (0 : ℚ) ≤ q := by
          have h0 := clampElapsed_nonneg answer question_start_time time_limit
          positivity
        have hq300 : q ≤ 300 := by
          have hle := clampElapsed_le answer question_start_time time_limit
          have hdiv : clampElapsed answer question_start_time time_limit / (time_limit : ℚ) ≤ 1 :=
            (div_le_one htlq).mpr hle
          have := mul_le_mul_of_nonneg_right
            (mul_le_mul_of_nonneg_right hdiv (by norm_num : (0:ℚ) ≤ 1000))
            (by norm_num : (0:ℚ) ≤ 3 / 10)
          calc q = clampElapsed answer question_start_time time_limit / (time_limit : ℚ)
                * 1000 * (3 / 10) := hqdef
            _ ≤ 1 * 1000 * (3 / 10) := this
            _ = 300 := by norm_num
        have hf0 : (0 : ℤ) ≤ ⌊q⌋ := Int.floor_nonneg.mpr hq0
        have hf300 : ⌊q⌋ ≤ 300 := by
          have := Int.floor_le_floor hq300
          simpa using this
        constructor
        · exact le_max_left _ _
        · exact max_le (by norm_num) (by omega)
      · have hc' : o.is_correct = false := by
          cases h : o.is_correct
          · rfl
          · exact absurd h hc
        simp [calculate_answer_score, hsel, hc']
  · -- zero for missing or incorrect option
    rintro (hnone | ⟨o, ho, hfalse⟩)
    · simp [calculate_answer_score, hnone]
    · simp [calculate_answer_score, ho, hfalse]

/-- Witness for C1 at a concrete correct answer (time limit 30, submitted 3 s in). -/
theorem calculate_answer_score_spec_witness :
    1 ≤ 30 ∧
    ((0 ≤ calculate_answer_score ⟨1, 1, ⟨1, 1, 30⟩, some ⟨5, 1, true⟩, 3⟩ 0 30 ∧
      calculate_answer_score ⟨1, 1, ⟨1, 1, 30⟩, some ⟨5, 1, true⟩, 3⟩ 0 30 ≤ 1000) ∧
    (((⟨1, 1, ⟨1, 1, 30⟩, some ⟨5, 1, true⟩, 3⟩ : StudentAnswer).selected_option = none ∨
        ∃ o, (⟨1, 1, ⟨1, 1, 30⟩, some ⟨5, 1, true⟩, 3⟩ : StudentAnswer).selected_option = some o ∧
          o.is_correct = false) →
      calculate_answer_score ⟨1, 1, ⟨1, 1, 30⟩, some ⟨5, 1, true⟩, 3⟩ 0 30 = 0) ∧
    (∀ o, (⟨1, 1, ⟨1, 1, 30⟩, some ⟨5, 1, true⟩, 3⟩ : StudentAnswer).selected_option = some o →
      o.is_correct = true →
      calculate_answer_score ⟨1, 1, ⟨1, 1, 30⟩, some ⟨5, 1, true⟩, 3⟩ 0 30 =
        max 0 (1000 - ⌊clampElapsed ⟨1, 1, ⟨1, 1, 30⟩, some ⟨5, 1, true⟩, 3⟩ 0 30 / (30 : ℚ)
          * 1000 * (3 / 10)⌋) ∧
      (clampElapsed ⟨1, 1, ⟨1, 1, 30⟩, some ⟨5, 1, true⟩, 3⟩ 0 30 = 0 →
        calculate_answer_score ⟨1, 1, ⟨1, 1, 30⟩, some ⟨5, 1, true⟩, 3⟩ 0 30 = 1000) ∧
      (clampElapsed ⟨1, 1, ⟨1, 1, 30⟩, some ⟨5, 1, true⟩, 3⟩ 0 30 = (30 : ℚ) →
        calculate_answer_score ⟨1, 1, ⟨1, 1, 30⟩, some ⟨5, 1, true⟩, 3⟩ 0 30 = 700))) :=
  ⟨by decide, calculate_answer_score_spec ⟨1, 1, ⟨1, 1, 30⟩, some ⟨5, 1, true⟩, 3⟩ 0 30 (by decide)⟩

/-- C9. calculate_answer_score divides by its time_limit argument with no guard:
the checked embedding (which records the ZeroDivisionError Python raises) agrees
with the total score function for every time_limit ≥ 1, but on a correct answer
with time_limit = 0 it reaches the division and errors. -/
theorem calculate_answer_score_div_by_zero (answer : StudentAnswer) (qst : ℚ) :
    (∀ time_limit : ℕ, 1 ≤ time_limit →
      calculate_answer_score_checked answer qst time_limit =
        .ok (calculate_answer_score answer qst time_limit)) ∧
    (∀ o, answer.selected_option = some o → o.is_correct = true →
      calculate_answer_score_checked answer qst 0 = .error ()) := by
  constructor
  · intro time_limit htl
    have htl0 : time_limit ≠ 0 := by omega
    match hsel : answer.selected_option with
    | none =>
      simp [calculate_answer_score_checked, calculate_answer_score, hsel]
    | some o =>
      by_cases hc : o.is_correct = false
      · simp [calculate_answer_score_checked, calculate_answer_score, hsel, hc]
      · simp [calculate_answer_score_checked, calculate_answer_score, hsel, hc, htl0]
  · intro o ho hc
    simp [calculate_answer_score_checked, ho, hc]

/-- Witness for C9 at a concrete correct answer. -/
theorem calculate_answer_score_div_by_zero_witness :
    (∀ time_limit : ℕ, 1 ≤ time_limit →
      calculate_answer_score_checked ⟨1, 1, ⟨1, 1, 30⟩, some ⟨5, 1, true⟩, 3⟩ 0 time_limit =
        .ok (calculate_answer_score ⟨1, 1, ⟨1, 1, 30⟩, some ⟨5, 1, true⟩, 3⟩ 0 time_limit)) ∧
    (∀ o, (⟨1, 1, ⟨1, 1, 30⟩, some ⟨5, 1, true⟩, 3⟩ : StudentAnswer).selected_option = some o →
      o.is_correct = true →
      calculate_answer_score_checked ⟨1, 1, ⟨1, 1, 30⟩, some ⟨5, 1, true⟩, 3⟩ 0 0 = .error ()) :=
  calculate_answer_score_div_by_zero ⟨1, 1, ⟨1, 1, 30⟩, some ⟨5, 1, true⟩, 3⟩ 0

/-- SessionStatus enum (database/enums.py). -/
inductive SessionStatus
  | PENDING
  | ACTIVE
  | CLOSED
deriving Repr, DecidableEq

/-- Mutable state of a QuizSession row (quiz_session.py): status, nullable
current-question pointer, nullable start/end timestamps. The immutable columns
(ids, code, created_at) are carried separately where needed. -/
structure SessionState where
  status : SessionStatus
  current_question_id : Option ℕ
  start_time : Option ℚ
  end_time : Option ℚ
deriving Repr, DecidableEq

/-- SessionDataAccess.update_status (session_data_access.py lines 73-89):
sets the status and stamps start_time / end_time only when unset. -/
def update_status (s : SessionState) (status : SessionStatus) (now : ℚ) : SessionState :=
  let s1 := { s with status := status }
  if status = .ACTIVE ∧ s.start_time = none then { s1 with start_time := some now }
  else if status = .CLOSED ∧ s.end_time = none then { s1 with end_time := some now }
  else s1

/-- SessionDataAccess.update_current_question (session_data_access.py lines 91-102). -/
def update_current_question (s : SessionState) (question_id : ℕ) : SessionState :=
  { s with current_question_id := some question_id }

inductive StartResult
  | emptyQuiz
  | started
deriving Repr, DecidableEq

/-- SessionService.start_session (session_service.py lines 52-88) for an existing
session: fails when the quiz has no questions; otherwise sets status ACTIVE (via
update_status) and the first question of the ordered list as current. Note the
source performs no check that the session is PENDING. -/
def start_session (questions : List Question) (now : ℚ) (s : SessionState) :
    StartResult × SessionState :=
  match questions with
  | [] => (.emptyQuiz, s)
  | q :: _ => (.started, update_current_question (update_status s .ACTIVE now) q.id)

/-- SessionService.end_session (session_service.py lines 90-100): delegates to
update_status with CLOSED. -/
def end_session (now : ℚ) (s : SessionState) : SessionState :=
  update_status s .CLOSED now

inductive NextResult
  | question (q : Question)
  | noMore
deriving Repr, DecidableEq

/-- SessionService.next_question (session_service.py lines 102-138) for an
existing session: finds the index of the current question in the ordered list
(-1 when unset or not found, encoded as next index 0), fails with the
no-more-questions outcome when past the end, else advances the pointer and
returns the next question. The source performs no session-status check. -/
def next_question (questions : List Question) (s : SessionState) :
    NextResult × SessionState :=
  let found : Option ℕ :=
    match s.current_question_id with
    | none => none
    | some qid => questions.findIdx? (fun q => q.id = qid)
  let next_idx : ℕ :=
    match found with
    | some i => i + 1
    | none => 0
  if h : next_idx < questions.length then
    let q := questions.get ⟨next_idx, h⟩
    (.question q, update_current_question s q.id)
  else
    (.noMore, s)

/-- A lifecycle command issued by an instructor, with the clock reading it runs at. -/
inductive SessionOp
  | start (now : ℚ)
  | next
  | stop (now : ℚ)
deriving Repr, DecidableEq

/-- Effect of one lifecycle command on the session state. -/
def applyOp (questions : List Question) (s : SessionState) : SessionOp → SessionState
  | .start now => (start_session questions now s).2
  | .next => (next_question questions s).2
  | .stop now => end_session now s

/-- State of a session as created by SessionDataAccess.create_session:
PENDING, no current question, no timestamps. -/
def initialSession : SessionState := ⟨.PENDING, none, none, none⟩

/-- Run a sequence of lifecycle commands from a state. -/
def runOps (questions : List Question) (s : SessionState) : List SessionOp → SessionState
  | [] => s
  | op :: ops => runOps questions (applyOp questions s op) ops

/-- Observation: the question_order of the question the pointer references. -/
def currentOrder (questions : List Question) (s : SessionState) : Option ℕ :=
  s.current_question_id.bind fun qid =>
    (questions.find? (fun q => q.id = qid)).map (fun q => q.question_order)

/-- Order comparison on optional pointers: an unset pointer is below everything. -/
def optOrderLE : Option ℕ → Option ℕ → Prop
  | none, _ => True
  | some _, none => False
  | some a, some b => a ≤ b

lemma optOrderLE_refl (x : Option ℕ) : optOrderLE x x := by
  cases x <;> simp [optOrderLE]

/-- Invariant: the pointer is unset or references a question of the quiz. -/
def pointerInv (questions : List Question) (s : SessionState) : Prop :=
  s.current_question_id = none ∨ ∃ q ∈ questions, s.current_question_id = some q.id

/-- C3 counterexample. On a CLOSED session of a two-question quiz whose pointer
is at question 1, next_question succeeds, returns question 2 and moves the
pointer: it does not fail with any invalid-transition error and it does change
the current-question pointer. -/
theorem next_question_on_closed_counterexample :
    (next_question [⟨1, 1, 30⟩, ⟨2, 2, 30⟩]
        ⟨.CLOSED, some 1, some 0, some 10⟩).1 = .question ⟨2, 2, 30⟩ ∧
    (next_question [⟨1, 1, 30⟩, ⟨2, 2, 30⟩]
        ⟨.CLOSED, some 1, some 0, some 10⟩).2 = ⟨.CLOSED, some 2, some 0, some 10⟩ := by
  decide

/-- C3 amended. next_question performs no status check at all: its outcome and
its effect on every field other than status are identical for PENDING, ACTIVE
and CLOSED sessions, so a non-ACTIVE session is advanced exactly like an active
one instead of failing with an InvalidTransition error. -/
theorem next_question_status_independent (questions : List Question) (s : SessionState)
    (st : SessionStatus) :
    next_question questions { s with status := st } =
      ((next_question questions s).1, { (next_question questions s).2 with status := st }) := by
  simp only [next_question, update_current_question]
  split <;> rfl

/-- C2 counterexample. Running [start, next] on a fresh session of a
two-question quiz leaves the pointer at the order-2 question; running
[start, next, start] (start_session again, which the source allows on an
already-ACTIVE session) resets the pointer to the order-1 question, so the
pointer moved backward through the quiz order. -/
theorem pointer_reset_counterexample :
    currentOrder [⟨1, 1, 30⟩, ⟨2, 2, 30⟩]
        (runOps [⟨1, 1, 30⟩, ⟨2, 2, 30⟩] initialSession [.start 0, .next]) = some 2 ∧
    currentOrder [⟨1, 1, 30⟩, ⟨2, 2, 30⟩]
        (runOps [⟨1, 1, 30⟩, ⟨2, 2, 30⟩] initialSession [.start 0, .next, .start 5]) = some 1 ∧
    (1 : ℕ) < 2 := by
  decide

lemma find?_id_of_mem (questions : List Question)
    (hids : (questions.map (fun q => q.id)).Nodup)
    (p : Question) (hp : p ∈ questions) :
    questions.find? (fun q => q.id = p.id) = some p := by
  induction questions with
  | nil => cases hp
  | cons x rest ih =>
    simp only [List.map_cons, List.nodup_cons] at hids
    rcases List.mem_cons.mp hp with rfl | hmem
    · simp
    · have hne : ¬ (x.id = p.id) := by
        intro h
        exact hids.1 (h ▸ List.mem_map_of_mem (fun q => q.id) hmem)
      rw [List.find?_cons_of_neg _ (by simpa using hne)]
      exact ih hids.2 hmem

lemma findIdx?_id_of_mem (questions : List Question)
    (hids : (questions.map (fun q => q.id)).Nodup)
    (p : Question) (hp : p ∈ questions) :
    ∃ (i : ℕ) (hi : i < questions.length),
      questions.findIdx? (fun q => q.id = p.id) = some i ∧ questions.get ⟨i, hi⟩ = p := by
  induction questions with
  | nil => cases hp
  | cons x rest ih =>
    simp only [List.map_cons, List.nodup_cons] at hids
    rcases List.mem_cons.mp hp with rfl | hmem
    · exact ⟨0, by simp, by simp, rfl⟩
    · have hne : ¬ (x.id = p.id) := by
        intro h
        exact hids.1 (h ▸ List.mem_map_of_mem (fun q => q.id) hmem)
      obtain ⟨i, hi, hfind, hget⟩ := ih hids.2 hmem
      refine ⟨i + 1, by simpa using Nat.succ_lt_succ hi, ?_, by simpa using hget⟩
      simp only [List.findIdx?_cons, Nat.zero_add]
      rw [if_neg (by simpa using hne), List.findIdx?_start_succ, hfind]
      rfl

lemma update_status_current (s : SessionState) (st : SessionStatus) (now : ℚ) :
    (update_status s st now).current_question_id = s.current_question_id := by
  unfold update_status
  split
  · rfl
  · split <;> rfl

lemma pointerInv_congr (questions : List Question) {s s' : SessionState}
    (h : s'.current_question_id = s.current_question_id) (hinv : pointerInv questions s) :
    pointerInv questions s' := by
  unfold pointerInv at *
  rw [h]
  exact hinv

lemma currentOrder_congr (questions : List Question) {s s' : SessionState}
    (h : s'.current_question_id = s.current_question_id) :
    currentOrder questions s' = currentOrder questions s := by
  unfold currentOrder
  rw [h]

/-- C2 amended. With the quiz list strictly ordered by question_order and
question ids distinct, every lifecycle step preserves the invariant that the
pointer references a question of the quiz (or is unset) and never moves the
pointer to an earlier question, and a successful next_question always returns
a question of strictly greater order than the previous current question --
PROVIDED start_session only runs while the pointer is unset. Without that
proviso the claim is false: start_session on an already-advanced session
resets the pointer to the first question (see the counterexample). -/
theorem pointer_monotone (questions : List Question) (s : SessionState) (op : SessionOp)
    (hsort : List.Pairwise (fun a b => a.question_order < b.question_order) questions)
    (hids : (questions.map (fun q => q.id)).Nodup)
    (hinv : pointerInv questions s)
    (hstart : ∀ now, op = .start now → s.current_question_id = none) :
    pointerInv questions (applyOp questions s op) ∧
    optOrderLE (currentOrder questions s) (currentOrder questions (applyOp questions s op)) ∧
    (∀ q, (next_question questions s).1 = .question q →
      ∀ p ∈ questions, s.current_question_id = some p.id →
        p.question_order < q.question_order) := by
  have hthird : ∀ q, (next_question questions s).1 = .question q →
      ∀ p ∈ questions, s.current_question_id = some p.id →
        p.question_order < q.question_order := by
    intro q hq p hp hcur
    obtain ⟨i, hi, hfind, hget⟩ := findIdx?_id_of_mem questions hids p hp
    simp only [next_question, hcur, hfind] at hq
    split at hq
    case isTrue h =>
      simp only at hq
      cases hq
      have horder := List.pairwise_iff_getElem.mp hsort i (i + 1) hi h (Nat.lt_succ_self i)
      have hgp : questions[i] = p := hget
      rw [hgp] at horder
      exact horder
    case isFalse h =>
      simp at hq
  refine ⟨?_, ?_, hthird⟩
  · -- the invariant is preserved
    cases op with
    | stop now => exact pointerInv_congr questions (update_status_current s .CLOSED now) hinv
    | start now =>
      cases questions with
      | nil => exact hinv
      | cons q rest => exact Or.inr ⟨q, List.mem_cons_self q rest, rfl⟩
    | next =>
      cases hcur : s.current_question_id with
      | none =>
        by_cases h0 : 0 < questions.length
        · simp only [applyOp, next_question, hcur, dif_pos h0, update_current_question]
          exact Or.inr ⟨questions.get ⟨0, h0⟩, List.get_mem questions 0 h0, rfl⟩
        · simp only [applyOp, next_question, hcur, dif_neg h0]
          exact hinv
      | some qid =>
        rcases hinv with hnone | ⟨p, hp, hpid⟩
        · rw [hcur] at hnone
          simp at hnone
        · rw [hcur] at hpid
          have hqid : qid = p.id := by
            simpa using hpid
          subst hqid
          obtain ⟨i, hi, hfind, hget⟩ := findIdx?_id_of_mem questions hids p hp
          by_cases h1 : i + 1 < questions.length
          · simp only [applyOp, next_question, hcur, hfind, dif_pos h1, update_current_question]
            exact Or.inr ⟨questions.get ⟨i + 1, h1⟩, List.get_mem questions (i + 1) h1, rfl⟩
          · simp only [applyOp, next_question, hcur, hfind, dif_neg h1]
            exact Or.inr ⟨p, hp, hcur⟩
  · -- the pointer order never decreases
    cases op with
    | stop now =>
      have h := currentOrder_congr questions (update_status_current s .CLOSED now)
      show optOrderLE (currentOrder questions s)
        (currentOrder questions (update_status s .CLOSED now))
      rw [h]
      exact optOrderLE_refl _
    | start now =>
      have hnone := hstart now rfl
      simp only [currentOrder, hnone]
      exact trivial
    | next =>
      cases hcur : s.current_question_id with
      | none =>
        simp only [currentOrder, hcur]
        exact trivial
      | some qid =>
        rcases hinv with hnone | ⟨p, hp, hpid⟩
        · rw [hcur] at hnone
          simp at hnone
        · rw [hcur] at hpid
          have hqid : qid = p.id := by
            simpa using hpid
          subst hqid
          obtain ⟨i, hi, hfind, hget⟩ := findIdx?_id_of_mem questions hids p hp
          have hold : currentOrder questions s = some p.question_order := by
            simp [currentOrder, hcur, find?_id_of_mem questions hids p hp]
          by_cases h1 : i + 1 < questions.length
          · have hnew : currentOrder questions (applyOp questions s .next) =
                some (questions.get ⟨i + 1, h1⟩).question_order := by
              have hmem : questions[i + 1] ∈ questions := List.getElem_mem h1
              simp only [applyOp, next_question, hcur, hfind, dif_pos h1,
                update_current_question]
              simp [currentOrder, find?_id_of_mem questions hids (questions[i + 1]) hmem]
            rw [hold, hnew]
            have horder := List.pairwise_iff_getElem.mp hsort i (i + 1) hi h1 (Nat.lt_succ_self i)
            have hgp : questions[i] = p := hget
            rw [hgp] at horder
            show p.question_order ≤ (questions.get ⟨i + 1, h1⟩).question_order
            exact le_of_lt horder
          · simp only [applyOp, next_question, hcur, hfind, dif_neg h1]
            exact optOrderLE_refl _

/-- Witness for C2 at a concrete input: a two-question quiz, an ACTIVE session
pointing at question 1, and the advance command. -/
theorem pointer_monotone_witness :
    pointerInv [⟨1, 1, 30⟩, ⟨2, 2, 30⟩]
      (applyOp [⟨1, 1, 30⟩, ⟨2, 2, 30⟩] ⟨.ACTIVE, some 1, some 0, none⟩ .next) ∧
    optOrderLE (currentOrder [⟨1, 1, 30⟩, ⟨2, 2, 30⟩] ⟨.ACTIVE, some 1, some 0, none⟩)
      (currentOrder [⟨1, 1, 30⟩, ⟨2, 2, 30⟩]
        (applyOp [⟨1, 1, 30⟩, ⟨2, 2, 30⟩] ⟨.ACTIVE, some 1, some 0, none⟩ .next)) ∧
    (∀ q, (next_question [⟨1, 1, 30⟩, ⟨2, 2, 30⟩]
        ⟨.ACTIVE, some 1, some 0, none⟩).1 = .question q →
      ∀ p ∈ [(⟨1, 1, 30⟩ : Question), ⟨2, 2, 30⟩],
        (⟨.ACTIVE, some 1, some 0, none⟩ : SessionState).current_question_id = some p.id →
          p.question_order < q.question_order) :=
  pointer_monotone [⟨1, 1, 30⟩, ⟨2, 2, 30⟩] ⟨.ACTIVE, some 1, some 0, none⟩ .next
    (by decide) (by decide) (Or.inr ⟨⟨1, 1, 30⟩, by decide, rfl⟩) (fun now h => by cases h)

/-- C6. When the current question is the last question of the quiz (question
ids being distinct), or the quiz has no questions at all, next_question
returns the no-more-questions signal and the full session state -- status,
pointer, start_time and end_time -- is returned unchanged. -/
theorem next_question_at_last_noop (questions : List Question) (s : SessionState)
    (hids : (questions.map (fun q => q.id)).Nodup)
    (hlast : (∃ h : questions ≠ [], s.current_question_id = some (questions.getLast h).id) ∨
      questions = []) :
    next_question questions s = (.noMore, s) := by
  rcases hlast with ⟨hne, hcur⟩ | hempty
  · have hlen : 0 < questions.length := List.length_pos.mpr hne
    have hlastmem : questions.getLast hne ∈ questions := List.getLast_mem hne
    obtain ⟨i, hi, hfind, hget⟩ := findIdx?_id_of_mem questions hids _ hlastmem
    have hnodup : questions.Nodup := List.Nodup.of_map _ hids
    have hlm1 : questions.length - 1 < questions.length := by omega
    have hgetLast : questions.getLast hne = questions[questions.length - 1] :=
      List.getLast_eq_getElem questions hne
    have hieq : i = questions.length - 1 := by
      have hg : questions[i] = questions[questions.length - 1] := by
        have hg1 : questions[i] = questions.getLast hne := hget
        rw [hg1, hgetLast]
      exact (List.Nodup.getElem_inj_iff hnodup).mp hg
    have hnolt : ¬ (i + 1 < questions.length) := by omega
    simp only [next_question, hcur, hfind, dif_neg hnolt]
  · subst hempty
    rcases hc : s.current_question_id with _ | qid <;>
      simp [next_question, hc]

/-- Witness for C6: an ACTIVE session of a two-question quiz pointing at the
last question. -/
theorem next_question_at_last_noop_witness :
    next_question [⟨1, 1, 30⟩, ⟨2, 2, 30⟩] ⟨.ACTIVE, some 2, some 0, none⟩ =
      (.noMore, ⟨.ACTIVE, some 2, some 0, none⟩) :=
  next_question_at_last_noop [⟨1, 1, 30⟩, ⟨2, 2, 30⟩] ⟨.ACTIVE, some 2, some 0, none⟩
    (by decide) (Or.inl ⟨by decide, rfl⟩)

/-- Immutable columns of a QuizSession row needed to resolve a join code. -/
structure StoredSession where
  id : ℕ
  session_code : String
  status : SessionStatus
deriving Repr, DecidableEq

/-- SessionParticipant row (session_participiant.py). -/
structure SessionParticipantRow where
  session_id : ℕ
  student_id : ℕ
  joined_at : ℚ
deriving Repr, DecidableEq

/-- SessionDataAccess.get_session_by_code: first row whose code matches. -/
def get_session_by_code (sessions : List StoredSession) (code : String) :
    Option StoredSession :=
  sessions.find? (fun s => s.session_code = code)

/-- ParticipantDataAccess.get_participant (participant_data_access.py lines 47-52). -/
def get_participant (parts : List SessionParticipantRow) (session_id student_id : ℕ) :
    Option SessionParticipantRow :=
  parts.find? (fun p => p.session_id = session_id ∧ p.student_id = student_id)

/-- ParticipantDataAccess.is_participant (participant_data_access.py lines 54-56). -/
def is_participant (parts : List SessionParticipantRow) (session_id student_id : ℕ) : Bool :=
  (get_participant parts session_id student_id).isSome

/-- ParticipantDataAccess.add_participant (participant_data_access.py lines 30-39):
inserts one new row. -/
def add_participant (parts : List SessionParticipantRow) (session_id student_id : ℕ)
    (now : ℚ) : List SessionParticipantRow :=
  parts ++ [⟨session_id, student_id, now⟩]

/-- The result dict of SessionService.join_session. -/
structure JoinOutcome where
  success : Bool
  message : String
  session : Option StoredSession
deriving Repr, DecidableEq

/-- SessionService.join_session (session_service.py lines 202-228): resolve the
code; fail if unknown or CLOSED; succeed idempotently when already a
participant; else add exactly one SessionParticipant row. -/
def join_session (sessions : List StoredSession) (parts : List SessionParticipantRow)
    (session_code : String) (student_id : ℕ) (now : ℚ) :
    JoinOutcome × List SessionParticipantRow :=
  match get_session_by_code sessions session_code with
  | none => (⟨false, "Invalid session code", none⟩, parts)
  | some session =>
    if session.status = .CLOSED then
      (⟨false, "This session has ended", none⟩, parts)
    else if is_participant parts session.id student_id then
      (⟨true, "Already joined", some session⟩, parts)
    else
      (⟨true, "Joined successfully", some session⟩,
        add_participant parts session.id student_id now)

/-- C7. For an existing session: joining when CLOSED fails with the
session-ended outcome and adds no participant; joining when already a
participant (PENDING or ACTIVE) succeeds with the already-joined message and
leaves the participant list unchanged; otherwise it succeeds and appends
exactly one new SessionParticipant row for (session.id, student_id). -/
theorem join_session_spec (sessions : List StoredSession)
    (parts : List SessionParticipantRow) (code : String) (student_id : ℕ) (now : ℚ)
    (sess : StoredSession) (hfind : get_session_by_code sessions code = some sess) :
    (sess.status = .CLOSED →
      join_session sessions parts code student_id now =
        (⟨false, "This session has ended", none⟩, parts)) ∧
    (sess.status ≠ .CLOSED → is_participant parts sess.id student_id = true →
      join_session sessions parts code student_id now =
        (⟨true, "Already joined", some sess⟩, parts)) ∧
    (sess.status ≠ .CLOSED → is_participant parts sess.id student_id = false →
      join_session sessions parts code student_id now =
        (⟨true, "Joined successfully", some sess⟩, parts ++ [⟨sess.id, student_id, now⟩])) := by
  refine ⟨?_, ?_, ?_⟩
  · intro hclosed
    simp [join_session, hfind, hclosed]
  · intro hopen hpart
    simp [join_session, hfind, hopen, hpart]
  · intro hopen hpart
    simp [join_session, hfind, hopen, hpart, add_participant]

/-- Witness for C7: a PENDING session with code 12345 and an empty participant
list; the student joins for the first time. -/
theorem join_session_spec_witness :
    ((⟨1, "12345", .PENDING⟩ : StoredSession).status = .CLOSED →
      join_session [⟨1, "12345", .PENDING⟩] [] "12345" 7 0 =
        (⟨false, "This session has ended", none⟩, [])) ∧
    ((⟨1, "12345", .PENDING⟩ : StoredSession).status ≠ .CLOSED →
      is_participant [] 1 7 = true →
      join_session [⟨1, "12345", .PENDING⟩] [] "12345" 7 0 =
        (⟨true, "Already joined", some ⟨1, "12345", .PENDING⟩⟩, [])) ∧
    ((⟨1, "12345", .PENDING⟩ : StoredSession).status ≠ .CLOSED →
      is_participant [] 1 7 = false →
      join_session [⟨1, "12345", .PENDING⟩] [] "12345" 7 0 =
        (⟨true, "Joined successfully", some ⟨1, "12345", .PENDING⟩⟩, [⟨1, 7, 0⟩])) :=
  join_session_spec [⟨1, "12345", .PENDING⟩] [] "12345" 7 0 ⟨1, "12345", .PENDING⟩ rfl

/-- Key match used by ScoringDataAccess.get_student_answer: the exact
(session, student, question) triple. -/
def answerKeyMatch (a : StudentAnswer) (session_id student_id question_id : ℕ) : Bool :=
  a.session_id = session_id ∧ a.student_id = student_id ∧ a.question.id = question_id

/-- ScoringDataAccess.get_student_answer (scoring_data_access.py lines 53-64):
first stored row for the key. -/
def get_student_answer (answers : List StudentAnswer)
    (session_id student_id question_id : ℕ) : Option StudentAnswer :=
  answers.find? (fun a => answerKeyMatch a session_id student_id question_id)

/-- Number of stored rows for a (session, student, question) key. -/
def count_answers_for_key (answers : List StudentAnswer)
    (session_id student_id question_id : ℕ) : ℕ :=
  (answers.filter (fun a => answerKeyMatch a session_id student_id question_id)).length

/-- ScoringDataAccess.submit_answer (scoring_data_access.py lines 66-86): if a
row for the key exists, overwrite its option and timestamp in place; otherwise
insert a new row (create_answer, whose submitted_at defaults to now). The
question is passed resolved; its id is the stored question_id. -/
def submit_answer (answers : List StudentAnswer) (session_id student_id : ℕ)
    (question : Question) (opt : Option QOption) (now : ℚ) : List StudentAnswer :=
  match answers with
  | [] => [⟨session_id, student_id, question, opt, now⟩]
  | a :: rest =>
    if answerKeyMatch a session_id student_id question.id then
      { a with selected_option := opt, submitted_at := now } :: rest
    else
      a :: submit_answer rest session_id student_id question opt now

lemma submit_answer_no_match (answers : List StudentAnswer) (sid stid : ℕ)
    (q : Question) (opt : Option QOption) (now : ℚ)
    (h : ∀ a ∈ answers, answerKeyMatch a sid stid q.id = false) :
    submit_answer answers sid stid q opt now = answers ++ [⟨sid, stid, q, opt, now⟩] := by
  induction answers with
  | nil => rfl
  | cons a rest ih =>
    have ha := h a (List.mem_cons_self a rest)
    simp only [submit_answer, ha, Bool.false_eq_true, if_false, List.cons_append,
      List.cons.injEq, true_and]
    exact ih (fun b hb => h b (List.mem_cons_of_mem a hb))

lemma submit_answer_update_last (answers : List StudentAnswer) (sid stid : ℕ)
    (q : Question) (r : StudentAnswer) (opt : Option QOption) (now : ℚ)
    (h : ∀ a ∈ answers, answerKeyMatch a sid stid q.id = false)
    (hr : answerKeyMatch r sid stid q.id = true) :
    submit_answer (answers ++ [r]) sid stid q opt now =
      answers ++ [{ r with selected_option := opt, submitted_at := now }] := by
  induction answers with
  | nil =>
    simp only [List.nil_append, submit_answer, hr, if_true]
  | cons a rest ih =>
    have ha := h a (List.mem_cons_self a rest)
    simp only [List.cons_append, submit_answer, ha, Bool.false_eq_true, if_false,
      List.cons.injEq, true_and]
    exact ih (fun b hb => h b (List.mem_cons_of_mem a hb))

lemma count_key_zero_iff (answers : List StudentAnswer) (sid stid qid : ℕ) :
    count_answers_for_key answers sid stid qid = 0 ↔
      ∀ a ∈ answers, answerKeyMatch a sid stid qid = false := by
  unfold count_answers_for_key
  rw [List.length_eq_zero, List.filter_eq_nil_iff]
  constructor
  · intro h a ha
    have := h a ha
    simpa using this
  · intro h a ha
    simp [h a ha]

/-- C5. Starting from a table with no row for the (session, student, question)
key: the first submit_answer inserts exactly one new row holding the first
option and timestamp; a second submit_answer with a different option leaves
exactly one row for the key, holding the second option and the latest
timestamp, and every other row untouched. -/
theorem submit_answer_upsert (answers : List StudentAnswer) (sid stid : ℕ)
    (q : Question) (o1 o2 : Option QOption) (t1 t2 : ℚ) (hne : o1 ≠ o2)
    (habsent : count_answers_for_key answers sid stid q.id = 0) :
    submit_answer answers sid stid q o1 t1 = answers ++ [⟨sid, stid, q, o1, t1⟩] ∧
    count_answers_for_key (submit_answer answers sid stid q o1 t1) sid stid q.id = 1 ∧
    submit_answer (submit_answer answers sid stid q o1 t1) sid stid q o2 t2 =
      answers ++ [⟨sid, stid, q, o2, t2⟩] ∧
    count_answers_for_key
      (submit_answer (submit_answer answers sid stid q o1 t1) sid stid q o2 t2)
      sid stid q.id = 1 ∧
    get_student_answer
      (submit_answer (submit_answer answers sid stid q o1 t1) sid stid q o2 t2)
      sid stid q.id = some ⟨sid, stid, q, o2, t2⟩ := by
  have hforall := (count_key_zero_iff answers sid stid q.id).mp habsent
  have hmatch1 : answerKeyMatch (⟨sid, stid, q, o1, t1⟩ : StudentAnswer) sid stid q.id = true := by
    simp [answerKeyMatch]
  have h1 : submit_answer answers sid stid q o1 t1 = answers ++ [⟨sid, stid, q, o1, t1⟩] :=
    submit_answer_no_match answers sid stid q o1 t1 hforall
  have h2 : submit_answer (submit_answer answers sid stid q o1 t1) sid stid q o2 t2 =
      answers ++ [⟨sid, stid, q, o2, t2⟩] := by
    rw [h1]
    exact submit_answer_update_last answers sid stid q _ o2 t2 hforall hmatch1
  have hcount : ∀ (o : Option QOption) (t : ℚ),
      count_answers_for_key (answers ++ [⟨sid, stid, q, o, t⟩]) sid stid q.id = 1 := by
    intro o t
    unfold count_answers_for_key
    rw [List.filter_append]
    have hnil : answers.filter (fun a => answerKeyMatch a sid stid q.id) = [] := by
      rw [List.filter_eq_nil_iff]
      intro a ha
      simp [hforall a ha]
    rw [hnil]
    simp [answerKeyMatch]
  refine ⟨h1, ?_, h2, ?_, ?_⟩
  · rw [h1]
    exact hcount o1 t1
  · rw [h2]
    exact hcount o2 t2
  · rw [h2]
    unfold get_student_answer
    rw [List.find?_append]
    have hnone : answers.find? (fun a => answerKeyMatch a sid stid q.id) = none := by
      rw [List.find?_eq_none]
      intro a ha
      simp [hforall a ha]
    rw [hnone]
    simp [answerKeyMatch]

/-- Witness for C5: empty table, question 9, two different options. -/
theorem submit_answer_upsert_witness :
    submit_answer [] 1 2 ⟨9, 1, 30⟩ (some ⟨5, 1, true⟩) 10 =
      [] ++ [⟨1, 2, ⟨9, 1, 30⟩, some ⟨5, 1, true⟩, 10⟩] ∧
    count_answers_for_key (submit_answer [] 1 2 ⟨9, 1, 30⟩ (some ⟨5, 1, true⟩) 10) 1 2 9 = 1 ∧
    submit_answer (submit_answer [] 1 2 ⟨9, 1, 30⟩ (some ⟨5, 1, true⟩) 10) 1 2 ⟨9, 1, 30⟩
        (some ⟨6, 2, false⟩) 20 =
      [] ++ [⟨1, 2, ⟨9, 1, 30⟩, some ⟨6, 2, false⟩, 20⟩] ∧
    count_answers_for_key
      (submit_answer (submit_answer [] 1 2 ⟨9, 1, 30⟩ (some ⟨5, 1, true⟩) 10) 1 2 ⟨9, 1, 30⟩
        (some ⟨6, 2, false⟩) 20) 1 2 9 = 1 ∧
    get_student_answer
      (submit_answer (submit_answer [] 1 2 ⟨9, 1, 30⟩ (some ⟨5, 1, true⟩) 10) 1 2 ⟨9, 1, 30⟩
        (some ⟨6, 2, false⟩) 20) 1 2 9 = some ⟨1, 2, ⟨9, 1, 30⟩, some ⟨6, 2, false⟩, 20⟩ :=
  submit_answer_upsert [] 1 2 ⟨9, 1, 30⟩ (some ⟨5, 1, true⟩) (some ⟨6, 2, false⟩) 10 20
    (by decide) rfl

/-- The max_attempts bound hard-coded in generate_session_code (session_code.py). -/
def MAX_CODE_ATTEMPTS : ℕ := 100

/-- Loop body of generate_session_code (session_code.py lines 24-39), with the
uniqueness check and the random draw injected: `draw i` is the code produced by
the i-th loop iteration, `session_code_exists` is the database check. The loop
counter runs while attempts < max_attempts; here the remaining-attempt count is
the recursion fuel, so termination is structural. -/
def generate_code_aux (session_code_exists : String → Bool) (draw : ℕ → String) :
    ℕ → ℕ → Except String String
  | _, 0 => .error "Could not generate unique session code after 100 attempts"
  | attempts, remaining + 1 =>
    let code := draw attempts
    if session_code_exists code then
      generate_code_aux session_code_exists draw (attempts + 1) remaining
    else
      .ok code

/-- generate_session_code (session_code.py lines 10-39). -/
def generate_session_code (session_code_exists : String → Bool) (draw : ℕ → String) :
    Except String String :=
  generate_code_aux session_code_exists draw 0 MAX_CODE_ATTEMPTS

lemma generate_code_aux_all_exist (ex : String → Bool) (draw : ℕ → String)
    (attempts remaining : ℕ)
    (h : ∀ i, attempts ≤ i → i < attempts + remaining → ex (draw i) = true) :
    generate_code_aux ex draw attempts remaining =
      .error "Could not generate unique session code after 100 attempts" := by
  induction remaining generalizing attempts with
  | zero => rfl
  | succ n ih =>
    have hx : ex (draw attempts) = true := h attempts le_rfl (by omega)
    simp only [generate_code_aux, hx, if_true]
    exact ih (attempts + 1) (fun i h1 h2 => h i (by omega) (by omega))

lemma generate_code_aux_ok (ex : String → Bool) (draw : ℕ → String)
    (attempts remaining k : ℕ) (hlo : attempts ≤ k) (hhi : k < attempts + remaining)
    (hprev : ∀ i, attempts ≤ i → i < k → ex (draw i) = true)
    (hfree : ex (draw k) = false) :
    generate_code_aux ex draw attempts remaining = .ok (draw k) := by
  induction remaining generalizing attempts with
  | zero => omega
  | succ n ih =>
    by_cases hat : attempts = k
    · subst hat
      simp [generate_code_aux, hfree]
    · have hx : ex (draw attempts) = true := hprev attempts le_rfl (by omega)
      simp only [generate_code_aux, hx, if_true]
      exact ih (attempts + 1) (by omega) (by omega)
        (fun i h1 h2 => hprev i (by omega) h2)

/-- C8. generate_session_code is total by construction. When the uniqueness
check reports every one of the 100 drawn codes as existing it fails with the
exhaustion error after exactly the configured 100 attempts; and whenever the
check first reports the k-th drawn code (k < 100) as free, it returns exactly
that code. -/
theorem generate_session_code_bounded (session_code_exists : String → Bool)
    (draw : ℕ → String) :
    ((∀ i, i < 100 → session_code_exists (draw i) = true) →
      generate_session_code session_code_exists draw =
        .error "Could not generate unique session code after 100 attempts") ∧
    (∀ k, k < 100 → (∀ i, i < k → session_code_exists (draw i) = true) →
      session_code_exists (draw k) = false →
      generate_session_code session_code_exists draw = .ok (draw k)) := by
  constructor
  · intro h
    exact generate_code_aux_all_exist session_code_exists draw 0 100
      (fun i _ h2 => h i (by omega))
  · intro k hk hprev hfree
    exact generate_code_aux_ok session_code_exists draw 0 100 k (by omega) (by omega)
      (fun i _ h2 => hprev i h2) hfree

/-- Witness for C8: a check that always reports "exists" forces the exhaustion
error; a check that always reports "free" returns the first drawn code. -/
theorem generate_session_code_bounded_witness :
    generate_session_code (fun _ => true) (fun _ => "00000") =
      .error "Could not generate unique session code after 100 attempts" ∧
    generate_session_code (fun _ => false) (fun _ => "00000") = .ok "00000" :=
  ⟨(generate_session_code_bounded (fun _ => true) (fun _ => "00000")).1 (fun i _ => rfl),
   (generate_session_code_bounded (fun _ => false) (fun _ => "00000")).2 0 (by decide)
     (fun i h => absurd h (Nat.not_lt_zero i)) rfl⟩

/-- Python round() at integer precision: round half to even. -/
def round_half_even (x : ℚ) : ℤ :=
  if x - ⌊x⌋ < 1 / 2 then ⌊x⌋
  else if x - ⌊x⌋ > 1 / 2 then ⌊x⌋ + 1
  else if ⌊x⌋ % 2 = 0 then ⌊x⌋ else ⌊x⌋ + 1

/-- Python round(x, 1): one decimal place, half to even (reals modelled as
exact rationals). -/
def round1 (x : ℚ) : ℚ := (round_half_even (x * 10) : ℚ) / 10

/-- The correctness test used in the leaderboard loop:
`answer.selected_option and answer.selected_option.is_correct`. -/
def isCorrectAnswer (a : StudentAnswer) : Bool :=
  match a.selected_option with
  | none => false
  | some o => o.is_correct

/-- The percent_correct expression of calculate_leaderboard (line 174):
correct / answered * 100 when anything was answered, else 0. -/
def percent_raw (correct_count answered_count : ℕ) : ℚ :=
  if answered_count > 0 then (correct_count : ℚ) / (answered_count : ℚ) * 100 else 0

/-- A participant with the username resolved through the student relationship. -/
structure ParticipantInfo where
  student_id : ℕ
  student_name : String
deriving Repr, DecidableEq

/-- One leaderboard entry dict (scoring_service.py lines 176-185), with the
rank key added later (0 before ranking). -/
structure LeaderboardEntry where
  student_id : ℕ
  student_name : String
  total_points : ℤ
  correct_count : ℕ
  total_questions : ℕ
  answered_count : ℕ
  percent_correct : ℚ
  participation : String
  rank : ℕ
deriving Repr, DecidableEq

/-- The per-participant body of the calculate_leaderboard loop (lines 149-185):
question_start_time is session.start_time or session.created_at; total_points
sums calculate_answer_score over the answers using each answer's question time
limit; correct and answered counts and the rounded percent fill the entry. -/
def mkEntry (start_time : Option ℚ) (created_at : ℚ) (total_questions : ℕ)
    (p : ParticipantInfo) (student_answers : List StudentAnswer) : LeaderboardEntry :=
  let question_start_time := start_time.getD created_at
  let total_points := (student_answers.map
      (fun a => calculate_answer_score a question_start_time a.question.time_limit)).sum
  let correct_count := (student_answers.filter (fun a => isCorrectAnswer a)).length
  let answered_count := student_answers.length
  let percent_correct := percent_raw correct_count answered_count
  { student_id := p.student_id
    student_name := p.student_name
    total_points := total_points
    correct_count := correct_count
    total_questions := total_questions
    answered_count := answered_count
    percent_correct := round1 percent_correct
    participation := toString answered_count ++ "/" ++ toString total_questions
    rank := 0 }

/-- Python dict assignment m[k] = v: overwrite in place if the key exists
(keeping its position), else append. -/
def dictUpsert {β : Type} (m : List (ℕ × β)) (k : ℕ) (v : β) : List (ℕ × β) :=
  match m with
  | [] => [(k, v)]
  | (k', v') :: rest => if k' = k then (k', v) :: rest else (k', v') :: dictUpsert rest k v

/-- Python dict .get(k, dflt). -/
def dictGet {β : Type} (m : List (ℕ × β)) (k : ℕ) (dflt : β) : β :=
  match m.find? (fun kv => kv.1 = k) with
  | some kv => kv.2
  | none => dflt

/-- The comparator realised by Python sorted with key (total_points,
percent_correct) and reverse=True: descending lexicographic. -/
def lbRel (a b : LeaderboardEntry) : Prop :=
  b.total_points < a.total_points ∨
    (a.total_points = b.total_points ∧ b.percent_correct ≤ a.percent_correct)

instance : DecidableRel lbRel := fun a b => by
  unfold lbRel
  infer_instance

instance : IsTotal LeaderboardEntry lbRel := by
  constructor
  intro a b
  unfold lbRel
  rcases lt_trichotomy a.total_points b.total_points with h | h | h
  · exact Or.inr (Or.inl h)
  · rcases le_total a.percent_correct b.percent_correct with hp | hp
    · exact Or.inr (Or.inr ⟨h.symm, hp⟩)
    · exact Or.inl (Or.inr ⟨h, hp⟩)
  · exact Or.inl (Or.inl h)

instance : IsTrans LeaderboardEntry lbRel := by
  constructor
  intro a b c hab hbc
  unfold lbRel at *
  rcases hab with h1 | ⟨h1, h1p⟩ <;> rcases hbc with h2 | ⟨h2, h2p⟩
  · exact Or.inl (lt_trans h2 h1)
  · exact Or.inl (h2 ▸ h1)
  · exact Or.inl (h1 ▸ h2)
  · exact Or.inr ⟨h1.trans h2, le_trans h2p h1p⟩

/-- The rank-assignment loop: enumerate(leaderboard, start=1) setting
entry.rank by position. -/
def addRanks : ℕ → List LeaderboardEntry → List LeaderboardEntry
  | _, [] => []
  | i, e :: es => { e with rank := i } :: addRanks (i + 1) es

/-- ScoringService.calculate_leaderboard (scoring_service.py lines 117-198):
empty when the quiz has no questions; otherwise one entry per participant
(a dict keyed by student_id, iterated in insertion order), stably sorted
descending by (total_points, percent_correct), then dense 1-based ranks. -/
def calculate_leaderboard (start_time : Option ℚ) (created_at : ℚ)
    (participants : List ParticipantInfo) (questions : List Question)
    (all_answers : List StudentAnswer) : List LeaderboardEntry :=
  let total_questions := questions.length
  if total_questions = 0 then []
  else
    let entries := (participants.foldl (fun acc p =>
        dictUpsert acc p.student_id
          (mkEntry start_time created_at total_questions p
            (all_answers.filter (fun a => a.student_id = p.student_id)))) []).map Prod.snd
    let sorted := List.insertionSort lbRel entries
    addRanks 1 sorted

/-- chr(64 + option_order): the letter label of an option. -/
def option_letter (o : QOption) : String := String.singleton (Char.ofNat (64 + o.option_order))

/-- The answer_map loop of get_detailed_results (lines 229-234): only answers
with a selected option contribute a letter, keyed by question id. -/
def build_answer_map (student_answers : List StudentAnswer) : List (ℕ × String) :=
  student_answers.foldl (fun m a =>
    match a.selected_option with
    | some o => dictUpsert m a.question.id (option_letter o)
    | none => m) []

/-- The per-question cell: answer_map.get(question.id, hyphen). -/
def answer_cell (student_answers : List StudentAnswer) (question_id : ℕ) : String :=
  dictGet (build_answer_map student_answers) question_id "-"

/-- One exported row of get_detailed_results. -/
structure DetailedRow where
  rank : ℕ
  student_name : String
  total_points : ℤ
  percent_correct : ℚ
  participation : String
  cells : List String
deriving Repr, DecidableEq

/-- ScoringService.get_detailed_results (scoring_service.py lines 200-252):
for each leaderboard entry, the per-question letters in quiz question order. -/
def get_detailed_results (start_time : Option ℚ) (created_at : ℚ)
    (participants : List ParticipantInfo) (questions : List Question)
    (all_answers : List StudentAnswer) : List DetailedRow :=
  let leaderboard := calculate_leaderboard start_time created_at participants questions all_answers
  leaderboard.map (fun entry =>
    let student_answers := all_answers.filter (fun a => a.student_id = entry.student_id)
    { rank := entry.rank
      student_name := entry.student_name
      total_points := entry.total_points
      percent_correct := entry.percent_correct
      participation := entry.participation
      cells := questions.map (fun q => answer_cell student_answers q.id) })

lemma dictUpsert_fresh {β : Type} (m : List (ℕ × β)) (k : ℕ) (v : β)
    (h : ∀ kv ∈ m, kv.1 ≠ k) : dictUpsert m k v = m ++ [(k, v)] := by
  induction m with
  | nil => rfl
  | cons kv rest ih =>
    have hk := h kv (List.mem_cons_self kv rest)
    simp only [dictUpsert, if_neg hk, List.cons_append, List.cons.injEq, true_and]
    exact ih (fun kv2 h2 => h kv2 (List.mem_cons_of_mem kv h2))

lemma foldl_dictUpsert_eq_map (g : ParticipantInfo → LeaderboardEntry) :
    ∀ (ps : List ParticipantInfo) (acc : List (ℕ × LeaderboardEntry)),
      (ps.map (fun p => p.student_id)).Nodup →
      (∀ p ∈ ps, ∀ kv ∈ acc, kv.1 ≠ p.student_id) →
      ps.foldl (fun acc p => dictUpsert acc p.student_id (g p)) acc =
        acc ++ ps.map (fun p => (p.student_id, g p)) := by
  intro ps
  induction ps with
  | nil => intro acc _ _; simp
  | cons p rest ih =>
    intro acc hnodup hfresh
    simp only [List.map_cons, List.nodup_cons] at hnodup
    have hstep : dictUpsert acc p.student_id (g p) = acc ++ [(p.student_id, g p)] :=
      dictUpsert_fresh acc p.student_id (g p)
        (fun kv hkv => hfresh p (List.mem_cons_self p rest) kv hkv)
    simp only [List.foldl_cons, hstep]
    rw [ih (acc ++ [(p.student_id, g p)]) hnodup.2 ?_]
    · simp
    · intro r hr kv hkv
      rcases List.mem_append.mp hkv with hacc | hone
      · exact hfresh r (List.mem_cons_of_mem p hr) kv hacc
      · have : kv = (p.student_id, g p) := by simpa using hone
        subst this
        intro hcontra
        apply hnodup.1
        have hmem : r.student_id ∈ rest.map (fun q => q.student_id) :=
          List.mem_map_of_mem (fun q => q.student_id) hr
        rw [show p.student_id = r.student_id from hcontra]
        exact hmem

lemma addRanks_length (i : ℕ) (l : List LeaderboardEntry) :
    (addRanks i l).length = l.length := by
  induction l generalizing i with
  | nil => rfl
  | cons e es ih => simp [addRanks, ih]

lemma addRanks_map_rank (i : ℕ) (l : List LeaderboardEntry) :
    (addRanks i l).map (fun e => e.rank) = List.range' i l.length := by
  induction l generalizing i with
  | nil => rfl
  | cons e es ih => simp [addRanks, List.range', ih]

lemma addRanks_map_sid (i : ℕ) (l : List LeaderboardEntry) :
    (addRanks i l).map (fun e => e.student_id) = l.map (fun e => e.student_id) := by
  induction l generalizing i with
  | nil => rfl
  | cons e es ih => simp [addRanks, ih]

lemma mem_addRanks {b : LeaderboardEntry} :
    ∀ (i : ℕ) (l : List LeaderboardEntry), b ∈ addRanks i l →
      ∃ a ∈ l, b.total_points = a.total_points ∧ b.percent_correct = a.percent_correct := by
  intro i l
  induction l generalizing i with
  | nil => intro h; cases h
  | cons e es ih =>
    intro h
    rcases List.mem_cons.mp h with heq | hmem
    · exact ⟨e, List.mem_cons_self e es, by rw [heq], by rw [heq]⟩
    · obtain ⟨a, ha, h1, h2⟩ := ih (i + 1) hmem
      exact ⟨a, List.mem_cons_of_mem e ha, h1, h2⟩

lemma sorted_addRanks (i : ℕ) (l : List LeaderboardEntry)
    (h : List.Sorted lbRel l) : List.Sorted lbRel (addRanks i l) := by
  induction l generalizing i with
  | nil => exact List.sorted_nil
  | cons e es ih =>
    rw [List.sorted_cons] at h
    obtain ⟨h1, h2⟩ := h
    show List.Sorted lbRel ({ e with rank := i } :: addRanks (i + 1) es)
    rw [List.sorted_cons]
    refine ⟨?_, ih (i + 1) h2⟩
    intro b hb
    obtain ⟨a, ha, htp, hpc⟩ := mem_addRanks (i + 1) es hb
    have hea := h1 a ha
    show lbRel e b
    unfold lbRel at *
    rw [htp, hpc]
    exact hea

lemma foldl_entries_eq (start_time : Option ℚ) (created_at : ℚ) (tq : ℕ)
    (all_answers : List StudentAnswer) (ps : List ParticipantInfo)
    (hnodup : (ps.map (fun p => p.student_id)).Nodup) :
    ps.foldl (fun acc p => dictUpsert acc p.student_id
        (mkEntry start_time created_at tq p
          (all_answers.filter (fun a => a.student_id = p.student_id)))) [] =
      ps.map (fun p => (p.student_id, mkEntry start_time created_at tq p
        (all_answers.filter (fun a => a.student_id = p.student_id)))) := by
  have h := foldl_dictUpsert_eq_map (fun p => mkEntry start_time created_at tq p
    (all_answers.filter (fun a => a.student_id = p.student_id))) ps [] hnodup
    (fun p _ kv hkv => absurd hkv (List.not_mem_nil kv))
  simpa using h

/-- C4. Under distinct participant ids and positive per-question time limits:
a quiz with zero questions yields the empty leaderboard; otherwise the
leaderboard has exactly one entry per participant (same multiset of student
ids, same length), is sorted non-increasing lexicographically by
(total_points, percent_correct), and its ranks are exactly the dense 1-based
positions 1..N. -/
theorem leaderboard_sorted_dense_ranks (start_time : Option ℚ) (created_at : ℚ)
    (participants : List ParticipantInfo) (questions : List Question)
    (all_answers : List StudentAnswer)
    (hids : (participants.map (fun p => p.student_id)).Nodup)
    (htl : ∀ a ∈ all_answers, 1 ≤ a.question.time_limit) :
    (questions = [] →
      calculate_leaderboard start_time created_at participants questions all_answers = []) ∧
    (questions ≠ [] →
      (calculate_leaderboard start_time created_at participants questions
          all_answers).length = participants.length ∧
      List.Sorted lbRel
        (calculate_leaderboard start_time created_at participants questions all_answers) ∧
      (calculate_leaderboard start_time created_at participants questions
          all_answers).map (fun e => e.rank) = List.range' 1 participants.length ∧
      List.Perm
        ((calculate_leaderboard start_time created_at participants questions
          all_answers).map (fun e => e.student_id))
        (participants.map (fun p => p.student_id))) := by
  constructor
  · intro h
    subst h
    rfl
  · intro hne
    have h0 : ¬ (questions.length = 0) := fun h => hne (List.length_eq_zero.mp h)
    have hlb : calculate_leaderboard start_time created_at participants questions all_answers =
        addRanks 1 (List.insertionSort lbRel (participants.map
          (fun p => mkEntry start_time created_at questions.length p
            (all_answers.filter (fun a => a.student_id = p.student_id))))) := by
      simp only [calculate_leaderboard]
      rw [if_neg h0, foldl_entries_eq start_time created_at questions.length all_answers
        participants hids, List.map_map]
      rfl
    rw [hlb]
    have hperm := List.perm_insertionSort lbRel (participants.map
      (fun p => mkEntry start_time created_at questions.length p
        (all_answers.filter (fun a => a.student_id = p.student_id))))
    have hlenS : (List.insertionSort lbRel (participants.map
        (fun p => mkEntry start_time created_at questions.length p
          (all_answers.filter (fun a => a.student_id = p.student_id))))).length =
        participants.length := by
      rw [hperm.length_eq, List.length_map]
    refine ⟨?_, ?_, ?_, ?_⟩
    · rw [addRanks_length, hlenS]
    · exact sorted_addRanks 1 _ (List.sorted_insertionSort lbRel _)
    · rw [addRanks_map_rank, hlenS]
    · rw [addRanks_map_sid]
      have h2 : (participants.map
          (fun p => mkEntry start_time created_at questions.length p
            (all_answers.filter (fun a => a.student_id = p.student_id)))).map
            (fun e => e.student_id) = participants.map (fun p => p.student_id) := by
        rw [List.map_map]
        rfl
      exact h2 ▸ hperm.map (fun e => e.student_id)

/-- Witness for C4: one participant, a one-question quiz, no answers. -/
theorem leaderboard_sorted_dense_ranks_witness :
    (([⟨1, 1, 30⟩] : List Question) = [] →
      calculate_leaderboard none 0 [⟨7, "a"⟩] [⟨1, 1, 30⟩] [] = []) ∧
    (([⟨1, 1, 30⟩] : List Question) ≠ [] →
      (calculate_leaderboard none 0 [⟨7, "a"⟩] [⟨1, 1, 30⟩] []).length =
        ([⟨7, "a"⟩] : List ParticipantInfo).length ∧
      List.Sorted lbRel (calculate_leaderboard none 0 [⟨7, "a"⟩] [⟨1, 1, 30⟩] []) ∧
      (calculate_leaderboard none 0 [⟨7, "a"⟩] [⟨1, 1, 30⟩] []).map (fun e => e.rank) =
        List.range' 1 ([⟨7, "a"⟩] : List ParticipantInfo).length ∧
      List.Perm
        ((calculate_leaderboard none 0 [⟨7, "a"⟩] [⟨1, 1, 30⟩] []).map
          (fun e => e.student_id))
        (([⟨7, "a"⟩] : List ParticipantInfo).map (fun p => p.student_id))) :=
  leaderboard_sorted_dense_ranks none 0 [⟨7, "a"⟩] [⟨1, 1, 30⟩] [] (by decide)
    (fun a h => absurd h (List.not_mem_nil a))

lemma round_half_even_mono {x y : ℚ} (h : x ≤ y) :
    round_half_even x ≤ round_half_even y := by
  have hfl : ⌊x⌋ ≤ ⌊y⌋ := Int.floor_le_floor h
  by_cases heq : ⌊x⌋ = ⌊y⌋
  · unfold round_half_even
    rw [heq]
    have hxy : x - ⌊y⌋ ≤ y - ⌊y⌋ := by linarith
    split_ifs <;> first | omega | linarith
  · have hlt : ⌊x⌋ < ⌊y⌋ := lt_of_le_of_ne hfl heq
    unfold round_half_even
    split_ifs <;> omega

lemma round1_mono {x y : ℚ} (h : x ≤ y) : round1 x ≤ round1 y := by
  unfold round1
  have h10 : x * 10 ≤ y * 10 := by linarith
  have := round_half_even_mono h10
  have hc : ((round_half_even (x * 10) : ℤ) : ℚ) ≤ ((round_half_even (y * 10) : ℤ) : ℚ) := by
    exact_mod_cast this
  linarith

lemma percent_raw_succ_le (c n : ℕ) (hcn : c ≤ n) :
    percent_raw c (n + 1) ≤ percent_raw c n := by
  unfold percent_raw
  by_cases hn : n = 0
  · subst hn
    have hc : c = 0 := Nat.le_zero.mp hcn
    subst hc
    norm_num
  · have hn' : 0 < n := Nat.pos_of_ne_zero hn
    rw [if_pos (by omega : n + 1 > 0), if_pos hn']
    have h1 : (c : ℚ) / ((n : ℚ) + 1) ≤ (c : ℚ) / (n : ℚ) := by
      rw [div_le_div_iff (by positivity) (by positivity)]
      have hc0 : (0 : ℚ) ≤ (c : ℚ) := by positivity
      nlinarith
    push_cast
    nlinarith
  
lemma percent_raw_succ_lt (c n : ℕ) (hc : 0 < c) (hcn : c ≤ n) :
    percent_raw c (n + 1) < percent_raw c n := by
  have hn' : 0 < n := lt_of_lt_of_le hc hcn
  unfold percent_raw
  rw [if_pos (by omega : n + 1 > 0), if_pos hn']
  have hcq : (0 : ℚ) < (c : ℚ) := by exact_mod_cast hc
  have h1 : (c : ℚ) / ((n : ℚ) + 1) < (c : ℚ) / (n : ℚ) := by
    rw [div_lt_div_iff (by positivity) (by positivity)]
    nlinarith
  push_cast
  nlinarith

lemma dictUpsert_find_none {β : Type} (m : List (ℕ × β)) (k qid : ℕ) (v : β)
    (hk : ¬ (k = qid)) (h : m.find? (fun kv => kv.1 = qid) = none) :
    (dictUpsert m k v).find? (fun kv => kv.1 = qid) = none := by
  induction m with
  | nil =>
    simp only [dictUpsert]
    rw [List.find?_cons_of_neg _ (by simpa using hk)]
    rfl
  | cons kv rest ih =>
    by_cases hp : kv.1 = qid
    · rw [List.find?_cons_of_pos _ (by simpa using hp)] at h
      cases h
    · rw [List.find?_cons_of_neg _ (by simpa using hp)] at h
      obtain ⟨k', v'⟩ := kv
      simp only [dictUpsert]
      by_cases hkk : k' = k
      · rw [if_pos hkk]
        rw [List.find?_cons_of_neg _ (by simpa using hp)]
        exact h
      · rw [if_neg hkk]
        rw [List.find?_cons_of_neg _ (by simpa using hp)]
        exact ih h

lemma build_map_find_none (l : List StudentAnswer) (qid : ℕ)
    (hq : ∀ b ∈ l, ¬ (b.question.id = qid)) :
    ∀ m : List (ℕ × String), m.find? (fun kv => kv.1 = qid) = none →
      (l.foldl (fun m a => match a.selected_option with
        | some o => dictUpsert m a.question.id (option_letter o)
        | none => m) m).find? (fun kv => kv.1 = qid) = none := by
  induction l with
  | nil => intro m hm; exact hm
  | cons b rest ih =>
    intro m hm
    simp only [List.foldl_cons]
    apply ih (fun c hc => hq c (List.mem_cons_of_mem b hc))
    match hsel : b.selected_option with
    | none => exact hm
    | some o =>
      exact dictUpsert_find_none m b.question.id qid (option_letter o)
        (hq b (List.mem_cons_self b rest)) hm

/-- C10. A StudentAnswer whose option is null scores 0 and is not counted
correct, yet it is counted in answered_count: it increments the answered
count and the participation numerator, weakly lowers the stored (rounded)
percent_correct and strictly lowers the underlying ratio whenever any answer
was correct, while leaving total_points unchanged; and in the detailed-results
matrix it contributes no letter, so its cell is the same hyphen a student who
never answered gets. -/
theorem null_option_answer_accounting (start_time : Option ℚ) (created_at : ℚ)
    (total_questions : ℕ) (p : ParticipantInfo) (l : List StudentAnswer)
    (a : StudentAnswer) (qst : ℚ) (tl : ℕ)
    (hnull : a.selected_option = none) :
    calculate_answer_score a qst tl = 0 ∧
    isCorrectAnswer a = false ∧
    (mkEntry start_time created_at total_questions p (l ++ [a])).correct_count =
      (mkEntry start_time created_at total_questions p l).correct_count ∧
    (mkEntry start_time created_at total_questions p (l ++ [a])).answered_count =
      (mkEntry start_time created_at total_questions p l).answered_count + 1 ∧
    (mkEntry start_time created_at total_questions p (l ++ [a])).total_points =
      (mkEntry start_time created_at total_questions p l).total_points ∧
    (mkEntry start_time created_at total_questions p (l ++ [a])).percent_correct ≤
      (mkEntry start_time created_at total_questions p l).percent_correct ∧
    (0 < (mkEntry start_time created_at total_questions p l).correct_count →
      percent_raw (mkEntry start_time created_at total_questions p l).correct_count
          ((mkEntry start_time created_at total_questions p l).answered_count + 1) <
        percent_raw (mkEntry start_time created_at total_questions p l).correct_count
          (mkEntry start_time created_at total_questions p l).answered_count) ∧
    (∀ qid, answer_cell (l ++ [a]) qid = answer_cell l qid) ∧
    ((∀ b ∈ l, ¬ (b.question.id = a.question.id)) →
      answer_cell (l ++ [a]) a.question.id = "-") := by
  have hscore : ∀ (t : ℚ) (m : ℕ), calculate_answer_score a t m = 0 := by
    intro t m
    simp [calculate_answer_score, hnull]
  have hfalse : isCorrectAnswer a = false := by
    simp [isCorrectAnswer, hnull]
  have hcc : ∀ m : List StudentAnswer,
      (mkEntry start_time created_at total_questions p m).correct_count =
        (m.filter (fun x => isCorrectAnswer x)).length := fun m => rfl
  have hac : ∀ m : List StudentAnswer,
      (mkEntry start_time created_at total_questions p m).answered_count = m.length :=
    fun m => rfl
  have htp : ∀ m : List StudentAnswer,
      (mkEntry start_time created_at total_questions p m).total_points =
        (m.map (fun x => calculate_answer_score x (start_time.getD created_at)
          x.question.time_limit)).sum := fun m => rfl
  have hpc : ∀ m : List StudentAnswer,
      (mkEntry start_time created_at total_questions p m).percent_correct =
        round1 (percent_raw (m.filter (fun x => isCorrectAnswer x)).length m.length) :=
    fun m => rfl
  have hccapp : (mkEntry start_time created_at total_questions p (l ++ [a])).correct_count =
      (mkEntry start_time created_at total_questions p l).correct_count := by
    rw [hcc, hcc, List.filter_append]
    simp [hfalse]
  have hcle : ((l.filter (fun x => isCorrectAnswer x)).length : ℕ) ≤ l.length :=
    List.length_filter_le _ _
  refine ⟨hscore qst tl, hfalse, hccapp, ?_, ?_, ?_, ?_, ?_, ?_⟩
  · rw [hac, hac]
    simp
  · rw [htp, htp, List.map_append]
    simp [hscore]
  · rw [hpc, hpc, List.filter_append]
    simp only [List.filter_cons, hfalse, Bool.false_eq_true, if_false, List.filter_nil,
      List.append_nil, List.length_append, List.length_cons, List.length_nil]
    apply round1_mono
    have := percent_raw_succ_le (l.filter (fun x => isCorrectAnswer x)).length l.length hcle
    simpa using this
  · intro hpos
    rw [hcc] at hpos
    rw [hcc, hac]
    exact percent_raw_succ_lt _ _ hpos hcle
  · intro qid
    unfold answer_cell build_answer_map
    rw [List.foldl_append]
    simp [hnull]
  · intro hq
    unfold answer_cell
    have hmap : (build_answer_map (l ++ [a])).find?
        (fun kv => kv.1 = a.question.id) = none := by
      unfold build_answer_map
      rw [List.foldl_append]
      simp only [List.foldl_cons, hnull, List.foldl_nil]
      exact build_map_find_none l a.question.id hq [] rfl
    unfold dictGet
    rw [hmap]

/-- Witness for C10: a cleared (null-option) answer on question 2 appended to
a list holding one correct answer on question 1. -/
theorem null_option_answer_accounting_witness :
    calculate_answer_score ⟨1, 7, ⟨2, 2, 30⟩, none, 5⟩ 0 30 = 0 ∧
    isCorrectAnswer ⟨1, 7, ⟨2, 2, 30⟩, none, 5⟩ = false ∧
    (mkEntry (some 0) 0 2 ⟨7, "a"⟩ ([⟨1, 7, ⟨1, 1, 30⟩, some ⟨11, 1, true⟩, 3⟩] ++
        [⟨1, 7, ⟨2, 2, 30⟩, none, 5⟩])).correct_count =
      (mkEntry (some 0) 0 2 ⟨7, "a"⟩
        [⟨1, 7, ⟨1, 1, 30⟩, some ⟨11, 1, true⟩, 3⟩]).correct_count ∧
    (mkEntry (some 0) 0 2 ⟨7, "a"⟩ ([⟨1, 7, ⟨1, 1, 30⟩, some ⟨11, 1, true⟩, 3⟩] ++
        [⟨1, 7, ⟨2, 2, 30⟩, none, 5⟩])).answered_count =
      (mkEntry (some 0) 0 2 ⟨7, "a"⟩
        [⟨1, 7, ⟨1, 1, 30⟩, some ⟨11, 1, true⟩, 3⟩]).answered_count + 1 ∧
    (mkEntry (some 0) 0 2 ⟨7, "a"⟩ ([⟨1, 7, ⟨1, 1, 30⟩, some ⟨11, 1, true⟩, 3⟩] ++
        [⟨1, 7, ⟨2, 2, 30⟩, none, 5⟩])).total_points =
      (mkEntry (some 0) 0 2 ⟨7, "a"⟩
        [⟨1, 7, ⟨1, 1, 30⟩, some ⟨11, 1, true⟩, 3⟩]).total_points ∧
    (mkEntry (some 0) 0 2 ⟨7, "a"⟩ ([⟨1, 7, ⟨1, 1, 30⟩, some ⟨11, 1, true⟩, 3⟩] ++
        [⟨1, 7, ⟨2, 2, 30⟩, none, 5⟩])).percent_correct ≤
      (mkEntry (some 0) 0 2 ⟨7, "a"⟩
        [⟨1, 7, ⟨1, 1, 30⟩, some ⟨11, 1, true⟩, 3⟩]).percent_correct ∧
    (0 < (mkEntry (some 0) 0 2 ⟨7, "a"⟩
        [⟨1, 7, ⟨1, 1, 30⟩, some ⟨11, 1, true⟩, 3⟩]).correct_count →
      percent_raw (mkEntry (some 0) 0 2 ⟨7, "a"⟩
          [⟨1, 7, ⟨1, 1, 30⟩, some ⟨11, 1, true⟩, 3⟩]).correct_count
        ((mkEntry (some 0) 0 2 ⟨7, "a"⟩
          [⟨1, 7, ⟨1, 1, 30⟩, some ⟨11, 1, true⟩, 3⟩]).answered_count + 1) <
      percent_raw (mkEntry (some 0) 0 2 ⟨7, "a"⟩
          [⟨1, 7, ⟨1, 1, 30⟩, some ⟨11, 1, true⟩, 3⟩]).correct_count
        (mkEntry (some 0) 0 2 ⟨7, "a"⟩
          [⟨1, 7, ⟨1, 1, 30⟩, some ⟨11, 1, true⟩, 3⟩]).answered_count) ∧
    (∀ qid, answer_cell ([⟨1, 7, ⟨1, 1, 30⟩, some ⟨11, 1, true⟩, 3⟩] ++
        [⟨1, 7, ⟨2, 2, 30⟩, none, 5⟩]) qid =
      answer_cell [⟨1, 7, ⟨1, 1, 30⟩, some ⟨11, 1, true⟩, 3⟩] qid) ∧
    ((∀ b ∈ [(⟨1, 7, ⟨1, 1, 30⟩, some ⟨11, 1, true⟩, 3⟩ : StudentAnswer)],
        ¬ (b.question.id = (⟨1, 7, ⟨2, 2, 30⟩, none, 5⟩ : StudentAnswer).question.id)) →
      answer_cell ([⟨1, 7, ⟨1, 1, 30⟩, some ⟨11, 1, true⟩, 3⟩] ++
        [⟨1, 7, ⟨2, 2, 30⟩, none, 5⟩])
        (⟨1, 7, ⟨2, 2, 30⟩, none, 5⟩ : StudentAnswer).question.id = "-") :=
  null_option_answer_accounting (some 0) 0 2 ⟨7, "a"⟩
    [⟨1, 7, ⟨1, 1, 30⟩, some ⟨11, 1, true⟩, 3⟩] ⟨1, 7, ⟨2, 2, 30⟩, none, 5⟩ 0 30 rfl
